import Mathlib

/-
Verification of the Bit Shift Assembler (bsa.c, version 10-Jan-2023)
against its natural-language specification.

The definitions below are a shallow embedding of the C source:
machine integers become Lean `Int` with explicit `emod`/`fdiv` where the
source relies on two's-complement truncation (`& 0xff` becomes
`Int.emod _ 256`, unsigned-char stores truncate modulo 256, and the
arithmetic right shift `>> 8` of gcc becomes `Int.fdiv _ 256`).
Fallible code paths (those calling exit(1) in the source) return
`Except String _`.
-/

namespace BSA

/-- Sentinel for an unresolved value (bsa.c `#define UNDEF 0xff0000`). -/
def UNDEF : Int := 0xFF0000

/-- `#define MAXPASS 20` (bsa.c line 628). -/
def MAXPASS : Nat := 20

/-- C truth value: relational and logical operators yield 0 or 1. -/
def b2i (b : Bool) : Int := if b then 1 else 0

-- ---------------------------------------------------------------------
-- Binary operator functions of the expression evaluator
-- (bsa.c lines 1783..1799).  C `int` arithmetic is modelled on `Int`;
-- `/` truncates toward zero (Int.div), `>>` is gcc's arithmetic shift
-- (floor division), `& | ^` are two's-complement bitwise operations.
-- ---------------------------------------------------------------------

def op_mul (l r : Int) : Int := l * r

/-- `int op_div(int l, int r) { if (r) return l / r; else return UNDEF; }` -/
def op_div (l r : Int) : Int := if r ≠ 0 then Int.tdiv l r else UNDEF

def op_add (l r : Int) : Int := l + r

def op_sub (l r : Int) : Int := l - r

def op_asl (l r : Int) : Int := l * 2 ^ r.toNat

def op_lsr (l r : Int) : Int := Int.fdiv l (2 ^ r.toNat)

def op_cle (l r : Int) : Int := b2i (l ≤ r)

def op_clt (l r : Int) : Int := b2i (l < r)

def op_cge (l r : Int) : Int := b2i (r ≤ l)

def op_cgt (l r : Int) : Int := b2i (r < l)

def op_ceq (l r : Int) : Int := b2i (l = r)

def op_cne (l r : Int) : Int := b2i (l ≠ r)

def op_xor (l r : Int) : Int := Int.xor l r

def op_and (l r : Int) : Int := b2i (l ≠ 0 ∧ r ≠ 0)

def op_bnd (l r : Int) : Int := Int.land l r

def op_lor (l r : Int) : Int := b2i (l ≠ 0 ∨ r ≠ 0)

def op_bor (l r : Int) : Int := Int.lor l r

/-- The 17 binary operators of the `binop` table (bsa.c lines 1810..1830). -/
inductive Binop
  | mul | div | add | sub | asl | lsr | cle | clt
  | cge | cgt | ceq | cne | xor | and | bnd | lor | bor
deriving DecidableEq, Repr

/-- Priority column of the `binop` table. -/
def Binop.prio : Binop → Nat
  | .mul => 11 | .div => 11
  | .add => 10 | .sub => 10
  | .asl =>  9 | .lsr =>  9
  | .cle =>  8 | .clt =>  8 | .cge => 8 | .cgt => 8
  | .ceq =>  7 | .cne =>  7
  | .xor =>  5
  | .and =>  3
  | .bnd =>  6
  | .lor =>  2
  | .bor =>  4

/-- Function column of the `binop` table. -/
def Binop.apply : Binop → Int → Int → Int
  | .mul => op_mul | .div => op_div | .add => op_add | .sub => op_sub
  | .asl => op_asl | .lsr => op_lsr | .cle => op_cle | .clt => op_clt
  | .cge => op_cge | .cgt => op_cgt | .ceq => op_ceq | .cne => op_cne
  | .xor => op_xor | .and => op_and | .bnd => op_bnd | .lor => op_lor
  | .bor => op_bor

/--
The binary-operator application step inside `EvalOperand`
(bsa.c lines 1901..1902):
`if (*v == UNDEF || w == UNDEF) *v = UNDEF; else *v = binop[i].foo(*v,w);`
-/
def evalBinStep (b : Binop) (l r : Int) : Int :=
  if l = UNDEF ∨ r = UNDEF then UNDEF else b.apply l r

-- ---------------------------------------------------------------------
-- Unary operator value transformations (bsa.c lines 1723..1742).
-- Each C function first recurses into EvalOperand for its operand and
-- then transforms the resulting value; the value transformation is
-- modelled here.  `op_min`, `op_lno` and `op_bno` transform the value
-- unconditionally; only `op_low` and `op_hig` test for UNDEF.
-- ---------------------------------------------------------------------

/-- `op_min`: `*v = -(*v)` (unconditional). -/
def op_min (v : Int) : Int := -v

/-- `op_lno`: `*v = !(*v)` (unconditional C logical not). -/
def op_lno (v : Int) : Int := b2i (v = 0)

/-- `op_bno`: `*v = ~(*v)` (unconditional two's-complement bit-not). -/
def op_bno (v : Int) : Int := -(v + 1)

/-- `op_low`: `if (*v != UNDEF) *v = *v & 0xff;` -/
def op_low (v : Int) : Int := if v ≠ UNDEF then v.emod 256 else v

/-- `op_hig`: `if (*v != UNDEF) *v = *v >> 8;` (arithmetic shift). -/
def op_hig (v : Int) : Int := if v ≠ UNDEF then Int.fdiv v 256 else v

-- ---------------------------------------------------------------------
-- Pass driver (bsa.c main, lines 3985..3989):
--    for (Pass = 1 ; Pass < MaxPass ; ++Pass) { Pass1(); }
--    Pass2();
-- A pass body is abstracted as a state transformer that also reports
-- the number of label-address changes it recorded (BOC[Pass-1]).
-- The loop consults only the loop counter, never the change counts.
-- ---------------------------------------------------------------------

/-- The body of the `for` loop: runs `pass1` for the remaining iterations
(the C loop runs while `Pass < MaxPass`, i.e. `maxPass - pass` more times),
collecting each pass's label-change count. -/
def passLoopAux {σ : Type} (pass1 : Nat → σ → σ × Nat) :
    Nat → Nat → σ → σ × List Nat
  | 0, _, s => (s, [])
  | n + 1, pass, s =>
    let r := pass1 pass s
    let rest := passLoopAux pass1 n (pass + 1) r.1
    (rest.1, r.2 :: rest.2)

/-- `for (Pass = 1 ; Pass < MaxPass ; ++Pass) Pass1();` -/
def passLoop {σ : Type} (pass1 : Nat → σ → σ × Nat) (maxPass : Nat) (s : σ) :
    σ × List Nat :=
  passLoopAux pass1 (maxPass - 1) 1 s

/-- The whole driver: the Pass1 loop followed by the final pass `Pass2()`
(which runs with `Pass = MaxPass` and performs listing and image writing). -/
def mainDriver {σ τ : Type} (pass1 : Nat → σ → σ × Nat) (pass2 : Nat → σ → τ)
    (maxPass : Nat) (s : σ) : τ × List Nat :=
  let r := passLoop pass1 maxPass s
  (pass2 maxPass r.1, r.2)

/-- A pass whose label-change count is always zero (instant convergence). -/
def zeroChangePass : Nat → Unit → Unit × Nat := fun _ s => (s, 0)

-- ---------------------------------------------------------------------
-- Symbol definition policy, DefineLabel (bsa.c lines 1213..1358).
-- The conflict handling for one symbol is modelled per definition mode;
-- `oldAddr` is the stored address, the result reports the new stored
-- address together with the BOC increment, or the fatal error taken.
-- ---------------------------------------------------------------------

/-- Outcome of one DefineLabel conflict check: either the label survives
with a (possibly updated) address and a branch-optimisation-count
increment, or the assembler exits fatally. -/
inductive DefResult
  | ok (addr : Int) (bocIncr : Nat)
  | fatal (msg : String)
deriving DecidableEq, Repr

/--
`NAME = expr` branch of DefineLabel (bsa.c lines 1244..1281):
`if (lab[j].Address == UNDEF) lab[j].Address = v;`
`else if (lab[j].Address != v && !lab[j].Locked) {`
`   if (Pass < MaxPass) lab[j].Address = v; else fatal }`
No BOC counter is touched on this path.
-/
def defineAssign (pass maxPass : Nat) (oldAddr v : Int) (locked : Bool) :
    DefResult :=
  if oldAddr = UNDEF then .ok v 0
  else if oldAddr ≠ v ∧ ¬locked then
    if pass < maxPass then .ok v 0
    else .fatal "Multiple assignments for label"
  else .ok oldAddr 0

/--
Bare-label (position) branch of DefineLabel for an existing symbol
(bsa.c lines 1313..1352): a differing `pc` is fatal in pass 1, overwrites
and increments `BOC[Pass-1]` in intermediate passes, and is a fatal phase
error in the final pass.
-/
def definePosition (pass maxPass : Nat) (oldAddr pcv : Int) (locked : Bool) :
    DefResult :=
  if oldAddr = UNDEF then .ok pcv 0
  else if oldAddr ≠ pcv ∧ ¬locked then
    if pass = 1 then .fatal "Multiple label definition"
    else if pass < maxPass then .ok pcv 1
    else .fatal "Phase error label"
  else .ok oldAddr 0

/--
`NAME .BSS n` branch of DefineLabel (bsa.c lines 1283..1310):
the stored address must equal the current BSS pointer (fatal otherwise,
in every pass); afterwards the BSS pointer advances by `n`.  The result
carries (new address, new bss pointer); no image byte is touched.
-/
def defineLabelBSS (oldAddr bssv n : Int) :
    Except String (Int × Int × List (Int × Int)) :=
  if oldAddr = UNDEF then .ok (bssv, bssv + n, [])
  else if oldAddr ≠ bssv then .error "Multiple assignments for label"
  else .ok (oldAddr, bssv + n, [])

-- ---------------------------------------------------------------------
-- Conditional preprocessor, CheckCondition (bsa.c lines 2873..2949)
-- and the missing-#endif check at the start of Pass2 (lines 3716..3724).
-- ---------------------------------------------------------------------

/-- `#if` / `#ifdef`: `IfLevel++; if (IfLevel > 9) fatal;` -/
def condOpen (ifLevel : Int) : Except String Int :=
  let l := ifLevel + 1
  if l > 9 then .error "More than 10  #IF or #IFDEF conditions nested"
  else .ok l

/-- `#endif`: `IfLevel--; ... if (IfLevel < 0) fatal;` -/
def condClose (ifLevel : Int) : Except String Int :=
  let l := ifLevel - 1
  if l < 0 then .error "endif without if"
  else .ok l

/-- Opening `n` nested `#if` conditions in sequence. -/
def nestOpens : Nat → Int → Except String Int
  | 0, l => .ok l
  | n + 1, l => condOpen l >>= nestOpens n

/-- Missing-#endif check at the start of the final pass
(Pass2, bsa.c lines 3716..3724): a leftover IfLevel is fatal. -/
def pass2IfCheck (ifLevel : Int) : Except String Unit :=
  if ifLevel ≠ 0 then .error "an #endif statement is missing"
  else .ok ()

-- ---------------------------------------------------------------------
-- Image writes.  A ROM store `ROM[a+i] = b` sequence is modelled as an
-- explicit write list (address, byte); `emit a bs` places the bytes `bs`
-- at consecutive addresses starting at `a` (unsigned-char stores, so all
-- byte values are reduced modulo 256 by the producers below).
-- ---------------------------------------------------------------------

/-- Consecutive byte stores starting at address `a`. -/
def emit (a : Int) : List Int → List (Int × Int)
  | [] => []
  | b :: bs => (a, b) :: emit (a + 1) bs

/-- Extract the write list of a fallible emitting operation. -/
def writesOf (r : Except String (List (Int × Int) × Int)) : List (Int × Int) :=
  match r with
  | .ok p => p.1
  | .error _ => []

/-- Write list of the emission block (whose second component is the
non-fatal error count rather than the new pc). -/
def writesOfN (r : Except String (List (Int × Int) × Nat)) :
    List (Int × Int) :=
  match r with
  | .ok p => p.1
  | .error _ => []

-- ---------------------------------------------------------------------
-- ParseWordData (bsa.c lines 1915..1969): .WORD / .BIGW lists.
-- Each value contributes low byte then high byte (little-endian), or
-- the swapped order for .BIGW; `v & 0xff` is `emod 256` and the
-- arithmetic shift `v >> 8` is `fdiv v 256`, truncated to a byte by the
-- unsigned-char ByteBuffer.
-- ---------------------------------------------------------------------

/-- The two ByteBuffer entries of one .WORD / .BIGW value. -/
def wordItemBytes (bigendian : Bool) (v : Int) : List Int :=
  if bigendian then [(Int.fdiv v 256).emod 256, v.emod 256]
  else [v.emod 256, (Int.fdiv v 256).emod 256]

/-- The ByteBuffer built by the parse loop of ParseWordData. -/
def wordBuffer (bigendian : Bool) : List Int → List Int
  | [] => []
  | v :: vs => wordItemBytes bigendian v ++ wordBuffer bigendian vs

/-- ParseWordData over the list of evaluated operand values: fatal on an
UNDEF value in the final pass and on an empty list; emits the ByteBuffer
into the image on the final pass only; advances pc by the buffer length. -/
def ParseWordData (pass maxPass : Nat) (pcv : Int) (bigendian : Bool)
    (vs : List Int) : Except String (List (Int × Int) × Int) :=
  if pass = maxPass ∧ UNDEF ∈ vs then .error "Undefined symbol in WORD data"
  else if (wordBuffer bigendian vs).length < 1 then .error "Missing WORD data"
  else
    .ok ((if pass = maxPass then emit pcv (wordBuffer bigendian vs) else []),
         pcv + (wordBuffer bigendian vs).length)

-- ---------------------------------------------------------------------
-- ParseByteData, numeric-expression items (bsa.c lines 2386..2396) and
-- the final-pass emission loop (lines 2414..2421).  `delim` is the first
-- character of the item: after `ByteBuffer[l++] = v & 0xff`, a second
-- byte `v >> 8` is appended only when the item does not start with `<`
-- or `>` and the value does not fit a byte.
-- ---------------------------------------------------------------------

/-- ByteBuffer entries of one numeric .BYTE item. -/
def byteItemBytes (delim : Char) (v : Int) : List Int :=
  [v.emod 256] ++
    (if delim ≠ '<' ∧ delim ≠ '>' ∧ (v > 255 ∨ v < -127)
     then [(Int.fdiv v 256).emod 256] else [])

/-- ByteBuffer built from a list of numeric items (first char, value). -/
def byteLineBuffer : List (Char × Int) → List Int
  | [] => []
  | it :: tl => byteItemBytes it.1 it.2 ++ byteLineBuffer tl

/-- ParseByteData over numeric items: fatal on an UNDEF value in the
final pass and on an empty buffer; emits on the final pass only. -/
def ParseByteDataNum (pass maxPass : Nat) (pcv : Int)
    (items : List (Char × Int)) : Except String (List (Int × Int) × Int) :=
  if pass = maxPass ∧ items.any (fun it => it.2 = UNDEF) then
    .error "Undefined symbol in BYTE data"
  else if (byteLineBuffer items).length < 1 then .error "Missing byte data"
  else
    .ok ((if pass = maxPass then emit pcv (byteLineBuffer items) else []),
         pcv + (byteLineBuffer items).length)

-- ---------------------------------------------------------------------
-- ParseFillData (bsa.c lines 2025..2058): `.FILL count (value)`.
-- ---------------------------------------------------------------------

/-- ParseFillData: `count` copies of `value & 0xff`, final pass only. -/
def ParseFillData (pass maxPass : Nat) (pcv m v : Int) :
    Except String (List (Int × Int) × Int) :=
  if m < 0 ∨ m > 32767 then .error "Illegal FILL multiplier"
  else
    .ok ((if pass = maxPass then
            emit pcv (List.replicate m.toNat (v.emod 256)) else []),
         pcv + m)

-- ---------------------------------------------------------------------
-- ParseBSSData (bsa.c lines 2187..2205): `.BSS n` advances the BSS
-- pointer only; the function contains no ROM store (its final-pass
-- branch only prints a listing line).
-- ---------------------------------------------------------------------

/-- ParseBSSData: result is (image writes, new bss pointer). -/
def ParseBSSData (bssv m : Int) : Except String (List (Int × Int) × Int) :=
  if m < 1 ∨ m > 32767 then .error "Illegal BSS size"
  else .ok ([], bssv + m)

-- ---------------------------------------------------------------------
-- Final-pass binary emission, the shared tail of GenerateCode
-- (bsa.c lines 3226..3283): `lo = v & 0xff; hi = v >> 8;` with base-page
-- collapse, the non-fatal byte-range check, optional 42 42 / EA prefix
-- bytes, then opcode / lo / hi stores bounded by `pl < pc + il`.
-- ---------------------------------------------------------------------

/-- The byte sequence stored by the emission block. -/
def insertBytes (bp oc il v : Int) (negneg prenop : Bool) : List Int :=
  let lo := v.emod 256
  let hi0 := Int.fdiv v 256
  let hi := if hi0 = bp ∧ il < 3 then 0 else hi0
  let pre := (if negneg then [(0x42 : Int), 0x42] else []) ++
             (if prenop then [(0xEA : Int)] else [])
  let bs0 := pre ++ [oc.emod 256]
  let bs1 := if (bs0.length : Int) < il then bs0 ++ [lo] else bs0
  if (bs1.length : Int) < il then bs1 ++ [hi.emod 256] else bs1

/-- The value checked by the emission block's byte-range test, after the
base-page collapse `if (hi == bp && il < 3) { hi = 0; v = lo; }`. -/
def insertV2 (bp il v : Int) : Int :=
  if Int.fdiv v 256 = bp ∧ il < 3 then v.emod 256 else v

/-- The non-fatal error count of the emission block
(`if (il < 3 && (v < -128 || v > 255))`). -/
def insertErrs (bp il v : Int) : Nat :=
  if il < 3 ∧ (insertV2 bp il v < -128 ∨ insertV2 bp il v > 255) then 1
  else 0

/-- The emission block: fatal on an UNDEF operand value in the final
pass; otherwise the writes of `insertBytes` starting at `pc`. -/
def insertBinary (pcv bp oc il v : Int) (negneg prenop : Bool) :
    Except String (List (Int × Int) × Nat) :=
  if v = UNDEF then .error "Use of an undefined label"
  else .ok (emit pcv (insertBytes bp oc il v negneg prenop),
            insertErrs bp il v)

-- ---------------------------------------------------------------------
-- GenerateCode, short relative branch (am == AM_Rela, branch
-- optimisation off; bsa.c lines 3095..3112), followed by the shared
-- emission block and the pc advance (lines 3225..3296).  Branch
-- mnemonics trigger none of AdjustOpcode's rewrites, so that call is a
-- no-op on this path.
-- ---------------------------------------------------------------------

/-- The short-branch path after the displacement `v` is computed. -/
def genShortBranchV (pass maxPass : Nat) (pcv bp oc v : Int) :
    Except String (List (Int × Int) × Int) :=
  if pass = maxPass ∧ v = UNDEF then .error "Branch to undefined label"
  else if pass = maxPass ∧ (v < -128 ∨ v > 127) then .error "Branch too long"
  else
    Except.map
      (fun r => (r.1, if pcv + 2 > 0xFFFF then pcv else pcv + 2))
      (if pass = maxPass then insertBinary pcv bp oc 2 v false false
       else .ok ([], 0))

/-- Short branch: `v = target; if (v != UNDEF) v -= (pc + 2);`. -/
def genShortBranch (pass maxPass : Nat) (pcv bp oc target : Int) :
    Except String (List (Int × Int) × Int) :=
  genShortBranchV pass maxPass pcv bp oc
    (if target = UNDEF then UNDEF else target - (pcv + 2))

-- ---------------------------------------------------------------------
-- GenerateCode, branch-optimisation path (am == AM_Rela with BranchOpt
-- and CPU 45GS02; bsa.c lines 3046..3090): choose short or long branch
-- from the displacement, freeze the chosen opcode into the image in the
-- pass before the final one (`if (Pass == MaxPass-1) ROM[pc] = oc;`),
-- and on the final pass read the frozen opcode back and emit.
-- ---------------------------------------------------------------------

/-- The opcode chosen by branch optimisation (`oc |= 3` for long). -/
def brOptChoose (pcv oc0 target : Int) : Int :=
  if target = UNDEF then Int.lor oc0 3
  else if target - (pcv + 2) < -128 ∨ target - (pcv + 2) > 127 then
    Int.lor oc0 3
  else oc0

/-- The instruction length chosen by branch optimisation. -/
def brOptLen (pcv target : Int) : Int :=
  if target = UNDEF then 3
  else if target - (pcv + 2) < -128 ∨ target - (pcv + 2) > 127 then 3
  else 2

/-- The displacement value after the branch-optimisation adjustments
(`v &= 0xffff` on the long path). -/
def brOptV (pcv target : Int) : Int :=
  if target = UNDEF then UNDEF
  else if target - (pcv + 2) < -128 ∨ target - (pcv + 2) > 127 then
    (target - (pcv + 2)).emod 65536
  else target - (pcv + 2)

/-- The branch-optimisation path of GenerateCode.  `frozen` is the image
byte `ROM[pc]` read back on the final pass. -/
def genBranchOptRela (pass maxPass : Nat) (pcv bp oc0 target frozen : Int) :
    Except String (List (Int × Int) × Int) :=
  let freeze := if pass = maxPass - 1 then
    [(pcv, (brOptChoose pcv oc0 target).emod 256)] else []
  if pass = maxPass then
    if brOptV pcv target = UNDEF then .error "Branch to undefined label"
    else
      let il2 : Int := if Int.land frozen 3 = 3 then 3 else 2
      let v2 := if Int.land frozen 3 = 3 then (brOptV pcv target).emod 65536
                else brOptV pcv target
      Except.map
        (fun r => (freeze ++ r.1,
                   if pcv + il2 > 0xFFFF then pcv else pcv + il2))
        (insertBinary pcv bp frozen il2 v2 false false)
  else
    .ok (freeze,
         if pcv + brOptLen pcv target > 0xFFFF then pcv
         else pcv + brOptLen pcv target)

/-- Discriminator for DefResult. -/
def DefResult.isFatal : DefResult → Bool
  | .fatal _ => true
  | .ok _ _ => false

-- ---------------------------------------------------------------------
-- Theorems.  Claims C4 and C9: expression evaluator.
-- ---------------------------------------------------------------------

/--
C4: for every binary operator application in the expression evaluator,
if either operand equals the sentinel UNDEFINED (0xFF0000) the result is
UNDEFINED; division by zero also yields UNDEFINED; in all other cases
the operator's arithmetic result (the function from the binop table) is
returned.
-/
theorem evalBinStep_undef_propagation :
    (∀ (b : Binop) (l r : Int), l = UNDEF ∨ r = UNDEF → evalBinStep b l r = UNDEF) ∧
    (∀ l : Int, evalBinStep Binop.div l 0 = UNDEF) ∧
    (∀ (b : Binop) (l r : Int), l ≠ UNDEF → r ≠ UNDEF →
      evalBinStep b l r = Binop.apply b l r) := by
  refine ⟨fun b l r h => ?_, fun l => ?_, fun b l r hl hr => ?_⟩
  · simp only [evalBinStep, if_pos h]
  · simp only [evalBinStep]
    split
    · rfl
    · simp [Binop.apply, op_div]
  · simp only [evalBinStep, if_neg (not_or.mpr ⟨hl, hr⟩)]

/-- Witness for C4 at concrete inputs. -/
theorem evalBinStep_undef_propagation_witness :
    evalBinStep Binop.add UNDEF 5 = UNDEF ∧
    evalBinStep Binop.div 7 0 = UNDEF ∧
    evalBinStep Binop.mul 6 7 = 42 := by
  refine ⟨evalBinStep_undef_propagation.1 Binop.add UNDEF 5 (Or.inl rfl),
          evalBinStep_undef_propagation.2.1 7, ?_⟩
  rw [evalBinStep_undef_propagation.2.2 Binop.mul 6 7 (by decide) (by decide)]
  decide

/--
C9: applying the unary operators minus, logical-not, or bitwise-not to an
operand whose value is the sentinel UNDEFINED returns the arithmetic
result computed on the sentinel itself (-0xFF0000, 0, and ~0xFF0000
respectively), not UNDEFINED; only the low-byte and high-byte unary
operators preserve UNDEFINED.
-/
theorem unary_ops_undef_behavior :
    op_min UNDEF = -0xFF0000 ∧ op_min UNDEF ≠ UNDEF ∧
    op_lno UNDEF = 0 ∧ op_lno UNDEF ≠ UNDEF ∧
    op_bno UNDEF = -(0xFF0000 + 1) ∧ op_bno UNDEF ≠ UNDEF ∧
    op_low UNDEF = UNDEF ∧
    op_hig UNDEF = UNDEF := by
  refine ⟨rfl, by decide, by decide, by decide, rfl, by decide, ?_, ?_⟩
  · simp [op_low]
  · simp [op_hig]

-- ---------------------------------------------------------------------
-- Claims C1, C3 and C6
-- ---------------------------------------------------------------------

theorem passLoopAux_length {σ : Type} (pass1 : Nat → σ → σ × Nat) :
    ∀ (n pass : Nat) (s : σ), (passLoopAux pass1 n pass s).2.length = n := by
  intro n
  induction n with
  | zero => intro pass s; rfl
  | succ n ih =>
    intro pass s
    simp only [passLoopAux, List.length_cons]
    rw [ih]

/--
C1 counterexample: even when every pass reports zero label-address
changes from the very first pass on (instant convergence), the driver
still performs MAXPASS - 1 = 19 Pass1 iterations before the final pass,
not the single completed pass that early convergence termination would
give; the change counts are recorded but never end the loop.
-/
theorem passDriver_no_early_exit_cex :
    (mainDriver zeroChangePass (fun _ s => s) MAXPASS ()).2.length = 19 ∧
    ¬ (mainDriver zeroChangePass (fun _ s => s) MAXPASS ()).2.length = 1 := by
  decide

/--
C1 amended: the pass driver always runs exactly MaxPass - 1 Pass1
iterations followed by the final pass (Pass2, which performs listing and
image writing), for every pass body and hence independently of the
per-pass label-address change counts; convergence never ends the loop
early.
-/
theorem passDriver_fixed_pass_count {σ τ : Type} (pass1 : Nat → σ → σ × Nat)
    (pass2 : Nat → σ → τ) (maxPass : Nat) (s : σ) :
    (mainDriver pass1 pass2 maxPass s).2.length = maxPass - 1 := by
  simp only [mainDriver, passLoop]
  exact passLoopAux_length pass1 (maxPass - 1) 1 s

/--
C3 counterexample: a conflicting redefinition of a non-locked symbol via
`NAME = expr` in pass 1 (stored address 5, new value 6) is not fatal: it
silently overwrites the address and records no label-change event,
contrary to the claimed policy that pass-1 conflicts are immediately
fatal and intermediate-pass changes are counted.
-/
theorem defineAssign_pass1_not_fatal_cex :
    defineAssign 1 MAXPASS 5 6 false = DefResult.ok 6 0 ∧
    (defineAssign 1 MAXPASS 5 6 false).isFatal = false := by
  decide

/--
C3 amended: the claimed phase-error policy (pass-1 conflict fatal,
intermediate passes overwrite and count a label-change event, final pass
fatal) holds exactly for bare-label (position) definitions.  For
`NAME = expr` assignments of a non-locked symbol, a conflicting
redefinition silently overwrites without counting a label-change event in
every pass before the final one, including pass 1, and is fatal only in
the final pass.  For `NAME .BSS n` definitions a conflicting value is
fatal in every pass.
-/
theorem defineLabel_phase_policy :
    (∀ pass maxPass : Nat, ∀ old v : Int, old ≠ UNDEF → old ≠ v →
      pass < maxPass → defineAssign pass maxPass old v false = .ok v 0) ∧
    (∀ pass maxPass : Nat, ∀ old v : Int, old ≠ UNDEF → old ≠ v →
      ¬ pass < maxPass →
      defineAssign pass maxPass old v false =
        .fatal "Multiple assignments for label") ∧
    (∀ maxPass : Nat, ∀ old pcv : Int, old ≠ UNDEF → old ≠ pcv →
      definePosition 1 maxPass old pcv false =
        .fatal "Multiple label definition") ∧
    (∀ pass maxPass : Nat, ∀ old pcv : Int, old ≠ UNDEF → old ≠ pcv →
      1 < pass → pass < maxPass →
      definePosition pass maxPass old pcv false = .ok pcv 1) ∧
    (∀ pass maxPass : Nat, ∀ old pcv : Int, old ≠ UNDEF → old ≠ pcv →
      1 < pass → ¬ pass < maxPass →
      definePosition pass maxPass old pcv false = .fatal "Phase error label") ∧
    (∀ old bssv n : Int, old ≠ UNDEF → old ≠ bssv →
      defineLabelBSS old bssv n = .error "Multiple assignments for label") := by
  refine ⟨?_, ?_, ?_, ?_, ?_, ?_⟩
  · intro pass maxPass old v h1 h2 h3
    simp [defineAssign, h1, h2, h3]
  · intro pass maxPass old v h1 h2 h3
    simp [defineAssign, h1, h2, h3]
  · intro maxPass old pcv h1 h2
    simp [definePosition, h1, h2]
  · intro pass maxPass old pcv h1 h2 h3 h4
    simp [definePosition, h1, h2, h4, Nat.ne_of_gt h3]
  · intro pass maxPass old pcv h1 h2 h3 h4
    simp [definePosition, h1, h2, h4, Nat.ne_of_gt h3]
  · intro old bssv n h1 h2
    simp [defineLabelBSS, h1, h2]

/-- Witness for C3 amended at concrete inputs. -/
theorem defineLabel_phase_policy_witness :
    defineAssign 2 MAXPASS 5 6 false = DefResult.ok 6 0 ∧
    defineAssign MAXPASS MAXPASS 5 6 false =
      DefResult.fatal "Multiple assignments for label" ∧
    definePosition 1 MAXPASS 5 6 false =
      DefResult.fatal "Multiple label definition" ∧
    definePosition 2 MAXPASS 5 6 false = DefResult.ok 6 1 ∧
    definePosition MAXPASS MAXPASS 5 6 false =
      DefResult.fatal "Phase error label" ∧
    defineLabelBSS 5 6 3 = Except.error "Multiple assignments for label" :=
  ⟨defineLabel_phase_policy.1 2 MAXPASS 5 6 (by decide) (by decide) (by decide),
   defineLabel_phase_policy.2.1 MAXPASS MAXPASS 5 6 (by decide) (by decide)
     (by decide),
   defineLabel_phase_policy.2.2.1 MAXPASS 5 6 (by decide) (by decide),
   defineLabel_phase_policy.2.2.2.1 2 MAXPASS 5 6 (by decide) (by decide)
     (by decide) (by decide),
   defineLabel_phase_policy.2.2.2.2.1 MAXPASS MAXPASS 5 6 (by decide)
     (by decide) (by decide) (by decide),
   defineLabel_phase_policy.2.2.2.2.2 5 6 3 (by decide) (by decide)⟩

/--
C6: the conditional preprocessor allows at most 9 nested #if/#ifdef
levels: the ninth nested open succeeds, but opening a tenth is fatal
(although the code's own error message and documentation claim a limit
of 10); #endif without a matching #if is fatal, and a missing #endif
left over at the start of the final pass is fatal.
-/
theorem conditional_nesting_limits :
    nestOpens 9 0 = Except.ok 9 ∧
    nestOpens 10 0 =
      Except.error "More than 10  #IF or #IFDEF conditions nested" ∧
    condClose 0 = Except.error "endif without if" ∧
    pass2IfCheck 1 = Except.error "an #endif statement is missing" ∧
    pass2IfCheck 0 = Except.ok () :=
  ⟨rfl, rfl, rfl, rfl, rfl⟩

-- ---------------------------------------------------------------------
-- Helper lemmas about the write-list combinators.
-- ---------------------------------------------------------------------

theorem emit_fst_le (bs : List Int) :
    ∀ (a : Int) (w : Int × Int), w ∈ emit a bs → a ≤ w.1 := by
  induction bs with
  | nil => intro a w h; simp [emit] at h
  | cons b tl ih =>
    intro a w h
    rcases List.mem_cons.mp h with h' | h'
    · subst h'; simp
    · have := ih (a + 1) w h'
      omega

theorem emit_fst_nodup (bs : List Int) :
    ∀ a : Int, ((emit a bs).map Prod.fst).Nodup := by
  induction bs with
  | nil => intro a; simp [emit]
  | cons b tl ih =>
    intro a
    simp only [emit, List.map_cons, List.nodup_cons]
    refine ⟨fun hmem => ?_, ih (a + 1)⟩
    obtain ⟨w, hw, hfst⟩ := List.mem_map.mp hmem
    have := emit_fst_le tl (a + 1) w hw
    omega

theorem emit_getElem (bs : List Int) :
    ∀ (a : Int) (k : Nat),
      (emit a bs)[k]? = Option.map (fun b => (a + (k : Int), b)) bs[k]? := by
  induction bs with
  | nil => intro a k; simp [emit]
  | cons b tl ih =>
    intro a k
    cases k with
    | zero => simp [emit]
    | succ k =>
      simp only [emit, List.getElem?_cons_succ]
      rw [ih (a + 1) k]
      cases h : tl[k]? with
      | none => rfl
      | some x =>
        simp only [Option.map_some', Option.some.injEq, Prod.mk.injEq,
                   and_true]
        omega

-- ---------------------------------------------------------------------
-- Helper lemmas about the emission block for a plain 2-byte instruction.
-- ---------------------------------------------------------------------

theorem insertBytes_short (bp oc v : Int) :
    insertBytes bp oc 2 v false false = [oc.emod 256, v.emod 256] := by
  norm_num [insertBytes]

theorem insertV2_short_bounds (bp v : Int) (h1 : -128 ≤ v) (h2 : v ≤ 255) :
    -128 ≤ insertV2 bp 2 v ∧ insertV2 bp 2 v ≤ 255 := by
  unfold insertV2
  have e1 : 0 ≤ v.emod 256 := Int.emod_nonneg v (by norm_num)
  have e2 : v.emod 256 < 256 := Int.emod_lt_of_pos v (by norm_num)
  split <;> omega

theorem insertErrs_short (bp v : Int) (h1 : -128 ≤ v) (h2 : v ≤ 255) :
    insertErrs bp 2 v = 0 := by
  have hb := insertV2_short_bounds bp v h1 h2
  rw [insertErrs, if_neg (by omega)]

theorem insertBinary_short (pcv bp oc v : Int)
    (h1 : -128 ≤ v) (h2 : v ≤ 255) :
    insertBinary pcv bp oc 2 v false false =
      .ok ([(pcv, oc.emod 256), (pcv + 1, v.emod 256)], 0) := by
  have hvu : v ≠ UNDEF := by simp only [UNDEF]; omega
  rw [insertBinary, if_neg hvu, insertBytes_short,
      insertErrs_short bp v h1 h2]
  rfl

/-- The short-branch path in the final pass, for an in-range displacement:
full characterisation of the writes and the pc advance. -/
theorem genShortBranch_final_ok (maxPass : Nat) (pcv bp oc target : Int)
    (hp0 : 0 ≤ pcv) (hp2 : pcv + 2 ≤ 0xFFFF)
    (hlo : -128 ≤ target - (pcv + 2)) (hhi : target - (pcv + 2) ≤ 127) :
    genShortBranch maxPass maxPass pcv bp oc target =
      .ok ([(pcv, oc.emod 256), (pcv + 1, (target - (pcv + 2)).emod 256)],
           pcv + 2) := by
  have htu : target ≠ UNDEF := by simp only [UNDEF]; omega
  have hvu : target - (pcv + 2) ≠ UNDEF := by simp only [UNDEF]; omega
  rw [genShortBranch, if_neg htu, genShortBranchV,
      if_neg (fun h => hvu h.2),
      if_neg (by rintro ⟨-, h | h⟩ <;> omega),
      if_pos rfl,
      insertBinary_short pcv bp oc _ hlo (by omega)]
  simp only [Except.map]
  rw [if_neg (by omega)]

-- ---------------------------------------------------------------------
-- Claim C5: short relative branches.
-- ---------------------------------------------------------------------

/--
C5: for every short relative-branch instruction whose displacement
target - (pc+2) fits in -128..127, the final pass emits the opcode at pc
and the operand byte (target - (pc+2)) mod 256 at pc+1; in particular a
branch targeting the instruction immediately following itself emits
offset 0.
-/
theorem shortBranch_emits_displacement :
    (∀ (maxPass : Nat) (pcv bp oc target : Int),
      0 ≤ pcv → pcv + 2 ≤ 0xFFFF →
      -128 ≤ target - (pcv + 2) → target - (pcv + 2) ≤ 127 →
      genShortBranch maxPass maxPass pcv bp oc target =
        .ok ([(pcv, oc.emod 256),
              (pcv + 1, (target - (pcv + 2)).emod 256)], pcv + 2)) ∧
    (∀ (maxPass : Nat) (pcv bp oc : Int),
      0 ≤ pcv → pcv + 2 ≤ 0xFFFF →
      genShortBranch maxPass maxPass pcv bp oc (pcv + 2) =
        .ok ([(pcv, oc.emod 256), (pcv + 1, 0)], pcv + 2)) := by
  refine ⟨fun maxPass pcv bp oc target hp0 hp2 hlo hhi =>
    genShortBranch_final_ok maxPass pcv bp oc target hp0 hp2 hlo hhi,
    fun maxPass pcv bp oc hp0 hp2 => ?_⟩
  rw [genShortBranch_final_ok maxPass pcv bp oc (pcv + 2) hp0 hp2
      (by omega) (by omega)]
  simp only [sub_self]
  have h0 : Int.emod 0 256 = 0 := rfl
  rw [h0]

/-- Witness for C5: a BNE at 0x1000 targeting 0x1005 emits D0 03, and a
branch at 0x2000 to the following instruction emits offset 0. -/
theorem shortBranch_emits_displacement_witness :
    genShortBranch MAXPASS MAXPASS 0x1000 0 0xD0 0x1005 =
      .ok ([(0x1000, 0xD0), (0x1001, 3)], 0x1002) ∧
    genShortBranch MAXPASS MAXPASS 0x2000 0 0xD0 0x2002 =
      .ok ([(0x2000, 0xD0), (0x2001, 0)], 0x2002) :=
  ⟨shortBranch_emits_displacement.1 MAXPASS 0x1000 0 0xD0 0x1005
     (by decide) (by decide) (by decide) (by decide),
   shortBranch_emits_displacement.2 MAXPASS 0x2000 0 0xD0
     (by decide) (by decide)⟩

-- ---------------------------------------------------------------------
-- Claim C7: .WORD / .BIGW endianness.
-- ---------------------------------------------------------------------

theorem wordItemBytes_length (be : Bool) (v : Int) :
    (wordItemBytes be v).length = 2 := by
  cases be <;> rfl

theorem wordBuffer_getElem (be : Bool) :
    ∀ (vs : List Int) (k j : Nat) (v : Int), j < 2 → vs[k]? = some v →
      (wordBuffer be vs)[2 * k + j]? = (wordItemBytes be v)[j]? := by
  intro vs
  induction vs with
  | nil => intro k j v hj h; simp at h
  | cons x tl ih =>
    intro k j v hj h
    cases k with
    | zero =>
      simp only [List.getElem?_cons_zero, Option.some.injEq] at h
      subst h
      simp only [wordBuffer, Nat.mul_zero, Nat.zero_add]
      exact List.getElem?_append_left (by rw [wordItemBytes_length]; omega)
    | succ k =>
      simp only [List.getElem?_cons_succ] at h
      have hlen : (wordItemBytes be x).length ≤ 2 * (k + 1) + j := by
        rw [wordItemBytes_length]; omega
      simp only [wordBuffer]
      rw [List.getElem?_append_right hlen, wordItemBytes_length]
      have hidx : 2 * (k + 1) + j - 2 = 2 * k + j := by omega
      rw [hidx]
      exact ih k j v hj h

/--
C7: for every value v of a .WORD list, the final pass stores v mod 256
(v & 0xFF) at pc and v >> 8 at pc+1 (little-endian), and .BIGW stores
the two bytes in the swapped big-endian order; the write list of a
successful final-pass ParseWordData is exactly the emitted buffer.
-/
theorem wordData_endianness :
    (∀ (pcv v : Int) (vs : List Int) (k : Nat),
      vs[k]? = some v → 0 ≤ v → v ≤ 0xFFFF →
      (emit pcv (wordBuffer false vs))[2 * k]? =
        some (pcv + 2 * (k : Int), v.emod 256) ∧
      (emit pcv (wordBuffer false vs))[2 * k + 1]? =
        some (pcv + 2 * (k : Int) + 1, Int.fdiv v 256)) ∧
    (∀ (pcv v : Int) (vs : List Int) (k : Nat),
      vs[k]? = some v → 0 ≤ v → v ≤ 0xFFFF →
      (emit pcv (wordBuffer true vs))[2 * k]? =
        some (pcv + 2 * (k : Int), Int.fdiv v 256) ∧
      (emit pcv (wordBuffer true vs))[2 * k + 1]? =
        some (pcv + 2 * (k : Int) + 1, v.emod 256)) ∧
    (∀ (maxPass : Nat) (pcv : Int) (be : Bool) (vs : List Int)
       (ws : List (Int × Int)) (pc2 : Int),
      ParseWordData maxPass maxPass pcv be vs = .ok (ws, pc2) →
      ws = emit pcv (wordBuffer be vs)) := by
  have hfd : ∀ v : Int, 0 ≤ v → v ≤ 0xFFFF →
      (Int.fdiv v 256).emod 256 = Int.fdiv v 256 := by
    intro v h0 h1
    rw [Int.fdiv_eq_ediv _ (by norm_num)]
    show (v / 256) % 256 = v / 256
    omega
  refine ⟨fun pcv v vs k hk h0 h1 => ?_, fun pcv v vs k hk h0 h1 => ?_,
          fun maxPass pcv be vs ws pc2 h => ?_⟩
  · have hg0 := wordBuffer_getElem false vs k 0 v (by omega) hk
    have hg1 := wordBuffer_getElem false vs k 1 v (by omega) hk
    rw [Nat.add_zero] at hg0
    rw [emit_getElem, emit_getElem, hg0, hg1]
    simp only [wordItemBytes, Bool.false_eq_true, if_false,
               List.getElem?_cons_zero, List.getElem?_cons_succ,
               List.getElem?_nil, Option.map_some', Option.some.injEq,
               Prod.mk.injEq, and_true, hfd v h0 h1]
    exact ⟨by push_cast; ring, by push_cast; ring⟩
  · have hg0 := wordBuffer_getElem true vs k 0 v (by omega) hk
    have hg1 := wordBuffer_getElem true vs k 1 v (by omega) hk
    rw [Nat.add_zero] at hg0
    rw [emit_getElem, emit_getElem, hg0, hg1]
    simp only [wordItemBytes, if_true, List.getElem?_cons_zero,
               List.getElem?_cons_succ, List.getElem?_nil,
               Option.map_some', Option.some.injEq, Prod.mk.injEq,
               and_true, hfd v h0 h1]
    exact ⟨by push_cast; ring, by push_cast; ring⟩
  · rw [ParseWordData] at h
    split at h
    · exact absurd h (by simp)
    · split at h
      · exact absurd h (by simp)
      · rw [if_pos rfl] at h
        simp only [Except.ok.injEq, Prod.mk.injEq] at h
        exact h.1.symm

/-- Witness for C7: .WORD 0x1234 at 0x2000 gives 34 12, and .BIGW 0x1234
at 0x3000 gives 12 34. -/
theorem wordData_endianness_witness :
    (emit 0x2000 (wordBuffer false [0x1234]))[0]? = some (0x2000, 0x34) ∧
    (emit 0x2000 (wordBuffer false [0x1234]))[1]? = some (0x2001, 0x12) ∧
    (emit 0x3000 (wordBuffer true [0x1234]))[0]? = some (0x3000, 0x12) ∧
    (emit 0x3000 (wordBuffer true [0x1234]))[1]? = some (0x3001, 0x34) ∧
    writesOf (ParseWordData MAXPASS MAXPASS 0x2000 false [0x1234]) =
      emit 0x2000 (wordBuffer false [0x1234]) := by
  obtain ⟨h1, h2⟩ := wordData_endianness.1 0x2000 0x1234 [0x1234] 0
    rfl (by decide) (by decide)
  obtain ⟨h3, h4⟩ := wordData_endianness.2.1 0x3000 0x1234 [0x1234] 0
    rfl (by decide) (by decide)
  have h5 := wordData_endianness.2.2 MAXPASS 0x2000 false [0x1234]
    (emit 0x2000 (wordBuffer false [0x1234])) 0x2002 (by rfl)
  exact ⟨h1.trans (by rfl), h2.trans (by rfl), h3.trans (by rfl),
         h4.trans (by rfl), h5 ▸ rfl⟩

-- ---------------------------------------------------------------------
-- Claim C8: BSS allocations never write image bytes.
-- ---------------------------------------------------------------------

/--
C8: every BSS allocation (the .BSS directive and the NAME .BSS n label
definition) produces no image write and advances the BSS pointer by the
operand value.
-/
theorem bss_allocations_write_nothing :
    (∀ (bssv m : Int) (ws : List (Int × Int)) (b2 : Int),
      ParseBSSData bssv m = .ok (ws, b2) → ws = [] ∧ b2 = bssv + m) ∧
    (∀ (old bssv n a b2 : Int) (ws : List (Int × Int)),
      defineLabelBSS old bssv n = .ok (a, b2, ws) →
      ws = [] ∧ b2 = bssv + n) := by
  constructor
  · intro bssv m ws b2 h
    rw [ParseBSSData] at h
    split at h
    · exact absurd h (by simp)
    · simp only [Except.ok.injEq, Prod.mk.injEq] at h
      exact ⟨h.1.symm, h.2.symm⟩
  · intro old bssv n a b2 ws h
    rw [defineLabelBSS] at h
    split at h
    · simp only [Except.ok.injEq, Prod.mk.injEq] at h
      exact ⟨h.2.2.symm, h.2.1.symm⟩
    · split at h
      · exact absurd h (by simp)
      · simp only [Except.ok.injEq, Prod.mk.injEq] at h
        exact ⟨h.2.2.symm, h.2.1.symm⟩

/-- Witness for C8 at concrete inputs (.BSS 5 from bss=100; LABEL .BSS 8
on a fresh symbol from bss=100). -/
theorem bss_allocations_write_nothing_witness :
    (([] : List (Int × Int)) = [] ∧ (105 : Int) = 100 + 5) ∧
    (([] : List (Int × Int)) = [] ∧ (108 : Int) = 100 + 8) :=
  ⟨bss_allocations_write_nothing.1 100 5 [] 105 rfl,
   bss_allocations_write_nothing.2 UNDEF 100 8 100 108 [] rfl⟩

-- ---------------------------------------------------------------------
-- Claim C10: two-byte .BYTE items.
-- ---------------------------------------------------------------------

/--
C10 counterexample: a numeric .BYTE item whose first character is the
high-byte operator `>` and whose value is 786 (> 255) emits ONE byte,
not the two bytes the claim demands for every item with v > 255: the
second byte is suppressed for items starting with `<` or `>`.
-/
theorem byteItem_large_value_suppressed_cex :
    (byteItemBytes '>' 786).length = 1 ∧
    ¬ (byteItemBytes '>' 786).length = 2 := by
  decide

/--
C10 amended: a numeric .BYTE item that does not begin with `<` or `>`
and whose value v satisfies v > 255 or v < -127 emits the two bytes
v mod 256 then (v >> 8) mod 256; an in-range value emits the single
byte v mod 256 (so out-of-range items emit more bytes than items).
-/
theorem byteItem_two_byte_rule :
    (∀ (delim : Char) (v : Int), delim ≠ '<' → delim ≠ '>' →
      (v > 255 ∨ v < -127) →
      byteItemBytes delim v = [v.emod 256, (Int.fdiv v 256).emod 256]) ∧
    (∀ (delim : Char) (v : Int), -127 ≤ v → v ≤ 255 →
      byteItemBytes delim v = [v.emod 256]) := by
  constructor
  · intro delim v h1 h2 h3
    rw [byteItemBytes, if_pos ⟨h1, h2, h3⟩]
    rfl
  · intro delim v h1 h2
    rw [byteItemBytes, if_neg]
    · rfl
    · rintro ⟨-, -, h | h⟩ <;> omega

/-- Witness for C10: .BYTE 300 gives bytes 2C 01, .BYTE 100 gives 64. -/
theorem byteItem_two_byte_rule_witness :
    byteItemBytes 'A' 300 = [44, 1] ∧ byteItemBytes 'A' 100 = [100] := by
  constructor
  · exact (byteItem_two_byte_rule.1 'A' 300 (by decide) (by decide)
      (Or.inl (by decide))).trans (by decide)
  · exact (byteItem_two_byte_rule.2 'A' 100 (by decide)
      (by decide)).trans (by decide)

-- ---------------------------------------------------------------------
-- Claim C2: image-write discipline across passes.
-- ---------------------------------------------------------------------

/--
C2 counterexample: in the pass before the final one (pass 19 of 20),
the branch-optimisation path stores the chosen branch opcode into the
image (`if (Pass == MaxPass-1) ROM[pc] = oc;`), so a pass before the
final one does write an image byte, contrary to the claim.
-/
theorem penultimate_freeze_write_cex :
    genBranchOptRela (MAXPASS - 1) MAXPASS 0x1000 0 0xD0 0x1005 0 =
      .ok ([(0x1000, 0xD0)], 0x1002) ∧
    writesOf (genBranchOptRela (MAXPASS - 1) MAXPASS 0x1000 0 0xD0 0x1005 0)
      ≠ [] := by
  refine ⟨rfl, ?_⟩
  intro h
  simp only [writesOf] at h
  exact absurd h (by decide)

/--
C2 amended: image bytes are written only during the final pass, with one
exception: under branch optimisation the penultimate pass stores exactly
the chosen branch opcode at the instruction's pc (the freeze that the
final pass reads back); no modelled operation writes anything in any
earlier pass, and within each single emitting operation every image
address is written at most once.
-/
theorem image_write_discipline :
    (∀ (pass maxPass : Nat) (pcv bp oc target : Int), pass < maxPass →
      writesOf (genShortBranch pass maxPass pcv bp oc target) = []) ∧
    (∀ (pass maxPass : Nat) (pcv bp oc0 target frozen : Int),
      pass < maxPass - 1 →
      writesOf (genBranchOptRela pass maxPass pcv bp oc0 target frozen) =
        []) ∧
    (∀ (maxPass : Nat) (pcv bp oc0 target frozen : Int), 2 ≤ maxPass →
      writesOf
        (genBranchOptRela (maxPass - 1) maxPass pcv bp oc0 target frozen) =
        [(pcv, (brOptChoose pcv oc0 target).emod 256)]) ∧
    (∀ (pass maxPass : Nat) (pcv : Int) (be : Bool) (vs : List Int),
      pass < maxPass →
      writesOf (ParseWordData pass maxPass pcv be vs) = []) ∧
    (∀ (pass maxPass : Nat) (pcv : Int) (items : List (Char × Int)),
      pass < maxPass →
      writesOf (ParseByteDataNum pass maxPass pcv items) = []) ∧
    (∀ (pass maxPass : Nat) (pcv m v : Int), pass < maxPass →
      writesOf (ParseFillData pass maxPass pcv m v) = []) ∧
    (∀ (pcv bp oc il v : Int) (negneg prenop : Bool),
      ((writesOfN (insertBinary pcv bp oc il v negneg prenop)).map
        Prod.fst).Nodup) ∧
    (∀ (pass maxPass : Nat) (pcv : Int) (be : Bool) (vs : List Int),
      ((writesOf (ParseWordData pass maxPass pcv be vs)).map
        Prod.fst).Nodup) ∧
    (∀ (pass maxPass : Nat) (pcv : Int) (items : List (Char × Int)),
      ((writesOf (ParseByteDataNum pass maxPass pcv items)).map
        Prod.fst).Nodup) ∧
    (∀ (pass maxPass : Nat) (pcv m v : Int),
      ((writesOf (ParseFillData pass maxPass pcv m v)).map
        Prod.fst).Nodup) := by
  refine ⟨?_, ?_, ?_, ?_, ?_, ?_, ?_, ?_, ?_, ?_⟩
  · intro pass maxPass pcv bp oc target h
    have hne : pass ≠ maxPass := Nat.ne_of_lt h
    simp [genShortBranch, genShortBranchV, writesOf, hne, Except.map]
  · intro pass maxPass pcv bp oc0 target frozen h
    have hne1 : pass ≠ maxPass - 1 := by omega
    have hne2 : pass ≠ maxPass := by omega
    simp [genBranchOptRela, writesOf, hne1, hne2]
  · intro maxPass pcv bp oc0 target frozen h
    have hne : maxPass - 1 ≠ maxPass := by omega
    simp [genBranchOptRela, writesOf, hne]
  · intro pass maxPass pcv be vs h
    have hne : pass ≠ maxPass := Nat.ne_of_lt h
    rw [ParseWordData, if_neg (by simp [hne])]
    split
    · rfl
    · simp [writesOf, hne]
  · intro pass maxPass pcv items h
    have hne : pass ≠ maxPass := Nat.ne_of_lt h
    rw [ParseByteDataNum, if_neg (by simp [hne])]
    split
    · rfl
    · simp [writesOf, hne]
  · intro pass maxPass pcv m v h
    have hne : pass ≠ maxPass := Nat.ne_of_lt h
    rw [ParseFillData]
    split
    · rfl
    · simp [writesOf, hne]
  · intro pcv bp oc il v negneg prenop
    rw [insertBinary]
    split
    · simp [writesOfN]
    · simp only [writesOfN]
      exact emit_fst_nodup _ pcv
  · intro pass maxPass pcv be vs
    rw [ParseWordData]
    split
    · simp [writesOf]
    · split
      · simp [writesOf]
      · simp only [writesOf]
        split
        · exact emit_fst_nodup _ pcv
        · simp
  · intro pass maxPass pcv items
    rw [ParseByteDataNum]
    split
    · simp [writesOf]
    · split
      · simp [writesOf]
      · simp only [writesOf]
        split
        · exact emit_fst_nodup _ pcv
        · simp
  · intro pass maxPass pcv m v
    rw [ParseFillData]
    split
    · simp [writesOf]
    · simp only [writesOf]
      split
      · exact emit_fst_nodup _ pcv
      · simp

/-- Witness for C2 amended at concrete inputs. -/
theorem image_write_discipline_witness :
    writesOf (genShortBranch 1 MAXPASS 0x1000 0 0xD0 0x1005) = [] ∧
    writesOf (genBranchOptRela 1 MAXPASS 0x1000 0 0xD0 0x1005 0) = [] ∧
    writesOf (genBranchOptRela (MAXPASS - 1) MAXPASS 0x1000 0 0xD0 0x1005 0)
      = [(0x1000, (brOptChoose 0x1000 0xD0 0x1005).emod 256)] ∧
    writesOf (ParseWordData 1 MAXPASS 0x2000 false [0x1234]) = [] ∧
    writesOf (ParseByteDataNum 1 MAXPASS 0x2000 [('A', 300)]) = [] ∧
    writesOf (ParseFillData 1 MAXPASS 0x2000 3 7) = [] ∧
    ((writesOfN (insertBinary 0x1000 0 0xD0 2 3 false false)).map
      Prod.fst).Nodup ∧
    ((writesOf (ParseWordData MAXPASS MAXPASS 0x2000 false [0x1234])).map
      Prod.fst).Nodup ∧
    ((writesOf (ParseByteDataNum MAXPASS MAXPASS 0x2000 [('A', 300)])).map
      Prod.fst).Nodup ∧
    ((writesOf (ParseFillData MAXPASS MAXPASS 0x2000 3 7)).map
      Prod.fst).Nodup :=
  ⟨image_write_discipline.1 1 MAXPASS 0x1000 0 0xD0 0x1005 (by decide),
   image_write_discipline.2.1 1 MAXPASS 0x1000 0 0xD0 0x1005 0 (by decide),
   image_write_discipline.2.2.1 MAXPASS 0x1000 0 0xD0 0x1005 0 (by decide),
   image_write_discipline.2.2.2.1 1 MAXPASS 0x2000 false [0x1234]
     (by decide),
   image_write_discipline.2.2.2.2.1 1 MAXPASS 0x2000 [('A', 300)]
     (by decide),
   image_write_discipline.2.2.2.2.2.1 1 MAXPASS 0x2000 3 7 (by decide),
   image_write_discipline.2.2.2.2.2.2.1 0x1000 0 0xD0 2 3 false false,
   image_write_discipline.2.2.2.2.2.2.2.1 MAXPASS MAXPASS 0x2000 false
     [0x1234],
   image_write_discipline.2.2.2.2.2.2.2.2.1 MAXPASS MAXPASS 0x2000
     [('A', 300)],
   image_write_discipline.2.2.2.2.2.2.2.2.2 MAXPASS MAXPASS 0x2000 3 7⟩

end BSA
